import Mathlib

/-!
Shallow embedding of `src/server.js` (an Express + Mongoose backend for an
officer-registration and subscription workflow).  The mutable MongoDB store is
modelled as an explicit `DB` value threaded through the handlers; each route
handler becomes a pure function from the store and the (already JSON-parsed)
request body to an `HResult` holding the HTTP status code, the JSON response
body and the updated store.  Timestamps (`new Date()`) are passed in as an
explicit `now : Nat` argument.
-/

/-- Modelled from the spec: the credential module is the external `bcryptjs`
library (not part of this repository).  Its one-way salted hash is modelled
deterministically; the digest carries the bcrypt format marker in front of the
input, so a digest is never equal to the hashed plaintext, which is the only
property of the hash the server relies on besides `compare` recognising it. -/
def bcryptHash (plaintext : String) : String :=
  "$2b$10$" ++ plaintext

/-- Modelled from the spec: `bcrypt.compare(plaintext, digest)` of the external
`bcryptjs` library succeeds exactly when the digest was produced from the
plaintext. -/
def bcryptCompare (plaintext digest : String) : Bool :=
  digest == bcryptHash plaintext

/-- The test `/^\d{10}$/.test(s)` used for mobile numbers (server.js:130). -/
def regexMobile (s : String) : Bool :=
  s.length == 10 && s.toList.all Char.isDigit

/-- The combined check `!transactionId || !/^\d{12}$/.test(transactionId)`
(server.js:164 and server.js:237), phrased positively: the request carries a
transaction ID and it is exactly 12 ASCII digits.  A missing field and the
empty string both fail (the empty string is JS-falsy and also fails the
regex, so the two readings agree). -/
def validTxnId (transactionId : Option String) : Bool :=
  match transactionId with
  | none => false
  | some s => s.length == 12 && s.toList.all Char.isDigit

/-- JS truthiness of an optional string field (`!username` etc.). -/
def jsTruthyStr (v : Option String) : Bool :=
  match v with
  | none => false
  | some s => s != ""

/-- `v || d` for an optional string `v` and default `d` (empty string is
falsy). -/
def strOr (v : Option String) (d : String) : String :=
  match v with
  | none => d
  | some s => if s == "" then d else s

/-- `date ? new Date(date) : new Date()` with dates as `Nat` timestamps; the
numeric timestamp `0` is JS-falsy. -/
def jsDateOr (v : Option Nat) (now : Nat) : Nat :=
  match v with
  | none => now
  | some d => if d == 0 then now else d

/-- The `Admin` model (server.js:32). -/
structure Admin where
  username : String
  password : String
deriving DecidableEq, Repr

/-- The `Officer` model (server.js:37).  `subscribed` defaults to `false`,
`transactionId` and `subscriptionDate` are optional, `createdAt` defaults to
the creation time. -/
structure Officer where
  name : String
  address : String
  mobile : String
  username : String
  password : String
  subscribed : Bool
  transactionId : Option String
  subscriptionDate : Option Nat
  createdAt : Nat
deriving DecidableEq, Repr

/-- The `Result` model (server.js:65). -/
structure Result where
  username : String
  name : String
  phone : String
  score : Int
  total : Int
  date : Nat
deriving DecidableEq, Repr

/-- The document store: the three MongoDB collections, in insertion order
(`create` appends). -/
structure DB where
  admins : List Admin
  officers : List Officer
  results : List Result
deriving DecidableEq, Repr

/-- A JSON value, used for response bodies. -/
inductive JVal where
  | str (s : String)
  | num (n : Int)
  | bool (b : Bool)
  | null
  | obj (fields : List (String × JVal))
  | arr (elems : List JVal)

/-- `{ error: m }` failure body. -/
def errBody (m : String) : JVal :=
  JVal.obj [("error", JVal.str m)]

/-- `{ message: m }` success body. -/
def msgBody (m : String) : JVal :=
  JVal.obj [("message", JVal.str m)]

/-- The outcome of one handler call: HTTP status, JSON body, updated store. -/
structure HResult where
  status : Nat
  body : JVal
  db : DB

/-- `delete obj[k]`: drop the key `k` from a JSON object's field list. -/
def deleteKey (k : String) (fields : List (String × JVal)) : List (String × JVal) :=
  fields.filter (fun f => f.1 != k)

mutual

/-- No object anywhere inside this JSON value carries the key `k`. -/
def noKeyJ (k : String) : JVal → Bool
  | JVal.str _ => true
  | JVal.num _ => true
  | JVal.bool _ => true
  | JVal.null => true
  | JVal.obj fields => noKeyFields k fields
  | JVal.arr elems => noKeyElems k elems

/-- `noKeyJ` on an object's field list. -/
def noKeyFields (k : String) : List (String × JVal) → Bool
  | [] => true
  | (key, v) :: rest => key != k && noKeyJ k v && noKeyFields k rest

/-- `noKeyJ` on an array's element list. -/
def noKeyElems (k : String) : List JVal → Bool
  | [] => true
  | v :: rest => noKeyJ k v && noKeyElems k rest

end

/-- `officer.toObject()`: the document rendered as a JSON field list
(internal MongoDB bookkeeping fields are not modelled). -/
def officerToObject (o : Officer) : List (String × JVal) :=
  [("name", JVal.str o.name),
   ("address", JVal.str o.address),
   ("mobile", JVal.str o.mobile),
   ("username", JVal.str o.username),
   ("password", JVal.str o.password),
   ("subscribed", JVal.bool o.subscribed),
   ("transactionId", match o.transactionId with | none => JVal.null | some t => JVal.str t),
   ("subscriptionDate", match o.subscriptionDate with | none => JVal.null | some d => JVal.num (Int.ofNat d)),
   ("createdAt", JVal.num (Int.ofNat o.createdAt))]

/-- A `Result` document rendered as a JSON field list. -/
def resultToObject (r : Result) : List (String × JVal) :=
  [("username", JVal.str r.username),
   ("name", JVal.str r.name),
   ("phone", JVal.str r.phone),
   ("score", JVal.num r.score),
   ("total", JVal.num r.total),
   ("date", JVal.num (Int.ofNat r.date))]

/-- `findOneAndUpdate` / `findOne` + `save`: rewrite the first element
satisfying `p` with `f`, leave everything else alone.  With no match the list
is unchanged (MongoDB upsert is off). -/
def updateFirst (p : α → Bool) (f : α → α) : List α → List α
  | [] => []
  | x :: xs => if p x then f x :: xs else x :: updateFirst p f xs

/-- Insert into a list kept in descending `key` order. -/
def insertDescBy (key : α → Nat) (x : α) : List α → List α
  | [] => [x]
  | y :: ys => if key y < key x then x :: y :: ys else y :: insertDescBy key x ys

/-- `.sort({ field: -1 })`: sort descending by `key` (insertion sort; only the
multiset of elements matters for the properties proved below). -/
def sortDescBy (key : α → Nat) : List α → List α
  | [] => []
  | x :: xs => insertDescBy key x (sortDescBy key xs)

/-- `initializeAdmin` (server.js:75): create the default admin account if no
admin named "admin" exists yet. -/
def initializeAdmin (db : DB) : DB :=
  if db.admins.any (fun a => a.username == "admin") then db
  else { db with admins := db.admins ++ [{ username := "admin", password := bcryptHash "admin123" }] }

/-- `POST /admin/login` (server.js:87). -/
def adminLogin (db : DB) (username password : String) : HResult :=
  match db.admins.find? (fun a => a.username == username) with
  | none => ⟨401, errBody "Invalid credentials", db⟩
  | some admin =>
      if bcryptCompare password admin.password then
        ⟨200, msgBody "Admin login successful", db⟩
      else
        ⟨401, errBody "Invalid credentials", db⟩

/-- `POST /login` (server.js:103): officer login; the response strips the
password field from the officer document. -/
def login (db : DB) (username password : String) : HResult :=
  match db.officers.find? (fun o => o.username == username) with
  | none => ⟨401, errBody "Invalid credentials", db⟩
  | some officer =>
      if bcryptCompare password officer.password then
        ⟨200, JVal.obj [("message", JVal.str "Login successful"),
                        ("officer", JVal.obj (deleteKey "password" (officerToObject officer))),
                        ("subscribed", JVal.bool officer.subscribed)], db⟩
      else
        ⟨401, errBody "Invalid credentials", db⟩

/-- The officer document built by `Officer.create` on signup (server.js:140):
schema defaults give `subscribed = false`, no transaction data, and
`createdAt = now`. -/
def mkOfficer (now : Nat) (name address mobile username hashedPassword : String) : Officer :=
  { name := name, address := address, mobile := mobile, username := username,
    password := hashedPassword, subscribed := false, transactionId := none,
    subscriptionDate := none, createdAt := now }

/-- `POST /signup` (server.js:126). -/
def signup (db : DB) (now : Nat) (name address mobile username password : String) : HResult :=
  if !(regexMobile mobile) then
    ⟨400, errBody "Invalid mobile number", db⟩
  else
    match db.officers.find? (fun o => o.username == username || o.mobile == mobile) with
    | some _ => ⟨400, errBody "Username or mobile number already exists", db⟩
    | none =>
        let newOfficer := mkOfficer now name address mobile username (bcryptHash password)
        ⟨200, JVal.obj [("message", JVal.str "Officer created successfully"),
                        ("officer", JVal.obj (deleteKey "password" (officerToObject newOfficer)))],
         { db with officers := db.officers ++ [newOfficer] }⟩

/-- `POST /submit-transaction` (server.js:160): validate the 12-digit ID,
reject an ID already stored on any officer, then `findOneAndUpdate` by
username, writing the ID, the submission date and `subscribed = false`. -/
def submitTransaction (db : DB) (now : Nat) (username : String) (transactionId : Option String) : HResult :=
  if !(validTxnId transactionId) then
    ⟨400, errBody "Invalid or missing 12-digit transaction ID", db⟩
  else
    let tid := transactionId.getD ""
    match db.officers.find? (fun o => o.transactionId == some tid) with
    | some _ => ⟨400, errBody "Transaction ID already used", db⟩
    | none =>
        match db.officers.find? (fun o => o.username == username) with
        | none => ⟨404, errBody "Officer not found", db⟩
        | some _ =>
            let officers2 :=
              updateFirst (fun o => o.username == username)
                (fun o => { o with transactionId := some tid, subscriptionDate := some now, subscribed := false })
                db.officers
            ⟨200, JVal.obj [("message", JVal.str "Transaction submitted successfully"),
                            ("transactionId", JVal.str tid)],
             { db with officers := officers2 }⟩

/-- `POST /officer/status` (server.js:188). -/
def officerStatus (db : DB) (username : String) : HResult :=
  match db.officers.find? (fun o => o.username == username) with
  | none => ⟨404, errBody "Officer not found", db⟩
  | some officer => ⟨200, JVal.obj [("activated", JVal.bool officer.subscribed)], db⟩

/-- `POST /officer/reset-password` (server.js:204): look up by username and
mobile together, then overwrite the stored password hash. -/
def officerResetPassword (db : DB) (username mobile password : String) : HResult :=
  match db.officers.find? (fun o => o.username == username && o.mobile == mobile) with
  | none => ⟨404, errBody "Officer not found or mobile mismatch", db⟩
  | some _ =>
      let officers2 :=
        updateFirst (fun o => o.username == username && o.mobile == mobile)
          (fun o => { o with password := bcryptHash password }) db.officers
      ⟨200, msgBody "Password reset successful", { db with officers := officers2 }⟩

/-- `GET /admin/officers` (server.js:223): all officers, newest first, the
password field projected away. -/
def getOfficers (db : DB) : HResult :=
  ⟨200, JVal.arr ((sortDescBy Officer.createdAt db.officers).map
          (fun o => JVal.obj (deleteKey "password" (officerToObject o)))), db⟩

/-- `POST /admin/activate` (server.js:233): validate the 12-digit ID, find the
officer holding it, reject if already subscribed, otherwise set
`subscribed = true` and the subscription date. -/
def adminActivate (db : DB) (now : Nat) (transactionId : Option String) : HResult :=
  if !(validTxnId transactionId) then
    ⟨400, errBody "Invalid transaction ID", db⟩
  else
    let tid := transactionId.getD ""
    match db.officers.find? (fun o => o.transactionId == some tid) with
    | none => ⟨404, errBody "Officer not found", db⟩
    | some officer =>
        if officer.subscribed then
          ⟨400, errBody "Already subscribed", db⟩
        else
          let officers2 :=
            updateFirst (fun o => o.transactionId == some tid)
              (fun o => { o with subscribed := true, subscriptionDate := some now }) db.officers
          ⟨200, msgBody "Subscription activated successfully", { db with officers := officers2 }⟩

/-- `POST /admin/reset-password` (server.js:261): `findOneAndUpdate` on the
fixed username "admin"; with no matching record nothing is written, and the
response is 200 either way. -/
def adminResetPassword (db : DB) (password : String) : HResult :=
  let admins2 :=
    updateFirst (fun a => a.username == "admin")
      (fun a => { a with password := bcryptHash password }) db.admins
  ⟨200, msgBody "Admin password updated", { db with admins := admins2 }⟩

/-- `POST /submit-result` (server.js:273): `!username || score == null ||
total == null` rejects; otherwise one `Result` document is appended with the
JS-falsy defaults of server.js:281. -/
def submitResult (db : DB) (now : Nat) (username name phone : Option String)
    (score total : Option Int) (date : Option Nat) : HResult :=
  if !(jsTruthyStr username) || score == none || total == none then
    ⟨400, errBody "Missing fields", db⟩
  else
    let r0 : Result :=
      { username := username.getD "", name := strOr name "Unknown",
        phone := strOr phone "Not Provided", score := score.getD 0,
        total := total.getD 0, date := jsDateOr date now }
    ⟨200, msgBody "Result submitted successfully",
     { db with results := db.results ++ [r0] }⟩

/-- `GET /get-results` (server.js:298): all results, newest first. -/
def getResults (db : DB) : HResult :=
  ⟨200, JVal.arr ((sortDescBy Result.date db.results).map
          (fun r => JVal.obj (resultToObject r))), db⟩

/-- One request to any of the server's routes, with the timestamp the handler
would draw from `new Date()` carried in the operation. -/
inductive Op where
  | adminLoginOp (username password : String)
  | loginOp (username password : String)
  | signupOp (now : Nat) (name address mobile username password : String)
  | submitTxOp (now : Nat) (username : String) (transactionId : Option String)
  | statusOp (username : String)
  | officerResetPwOp (username mobile password : String)
  | listOfficersOp
  | activateOp (now : Nat) (transactionId : Option String)
  | adminResetPwOp (password : String)
  | submitResultOp (now : Nat) (username name phone : Option String)
      (score total : Option Int) (date : Option Nat)
  | getResultsOp
deriving DecidableEq, Repr

/-- Dispatch one operation to its handler. -/
def step (db : DB) (op : Op) : HResult :=
  match op with
  | Op.adminLoginOp u p => adminLogin db u p
  | Op.loginOp u p => login db u p
  | Op.signupOp now n a m u p => signup db now n a m u p
  | Op.submitTxOp now u tid => submitTransaction db now u tid
  | Op.statusOp u => officerStatus db u
  | Op.officerResetPwOp u m p => officerResetPassword db u m p
  | Op.listOfficersOp => getOfficers db
  | Op.activateOp now tid => adminActivate db now tid
  | Op.adminResetPwOp p => adminResetPassword db p
  | Op.submitResultOp now u n ph s t d => submitResult db now u n ph s t d
  | Op.getResultsOp => getResults db

/-- Run a sequence of requests against the store. -/
def runOps (db : DB) : List Op → DB
  | [] => db
  | op :: ops => runOps (step db op).db ops

/-- The empty document store. -/
def DB.empty : DB := ⟨[], [], []⟩

/-- The store at server start: `initializeAdmin()` has run against an empty
database (server.js:314). -/
def DB.init : DB := initializeAdmin DB.empty

/-- The usernames of the stored officers are pairwise distinct (the schema's
unique index on `username`, maintained by the signup duplicate check). -/
def UsernamesNodup (l : List Officer) : Prop :=
  (l.map Officer.username).Nodup

/-- In trace `t`, position `j` holds a transaction submission for username `u`
that succeeded (returned 200, hence wrote to `u`'s record). -/
def submitSucceedsAt (t : List Op) (j : Nat) (u : String) : Prop :=
  ∃ now tid, t.get? j = some (Op.submitTxOp now u tid) ∧
    (step (runOps DB.init (t.take j)) (Op.submitTxOp now u tid)).status = 200

/-- Somewhere in trace `t` an admin activation for exactly `tid` succeeded,
and no later position holds a successful transaction submission for `u`: the
activation happened after `u`'s most recent (successful) submission. -/
def activatedAfterLastSubmit (t : List Op) (u : String) (tid : Option String) : Prop :=
  ∃ i now, t.get? i = some (Op.activateOp now tid) ∧
    (step (runOps DB.init (t.take i)) (Op.activateOp now tid)).status = 200 ∧
    ∀ j, i < j → ¬ submitSucceedsAt t j u

/-- A concrete demonstration trace: one officer signs up, submits a
transaction ID, and is activated by the admin. -/
def demoTrace : List Op :=
  [Op.signupOp 1 "A" "X" "1234567890" "u1" "p1",
   Op.submitTxOp 2 "u1" (some "123456789012"),
   Op.activateOp 3 (some "123456789012")]

/-- The officer record produced by `demoTrace`. -/
def demoOfficer : Officer :=
  { name := "A", address := "X", mobile := "1234567890", username := "u1",
    password := bcryptHash "p1", subscribed := true,
    transactionId := some "123456789012", subscriptionDate := some 3, createdAt := 1 }

/-- A stored officer who has not yet submitted a transaction but is (somehow)
already subscribed; used to exercise the resubscription reset concretely. -/
def officerA : Officer :=
  { name := "A", address := "X", mobile := "1111111111", username := "u1",
    password := "h", subscribed := true, transactionId := none,
    subscriptionDate := none, createdAt := 0 }

/-- A store holding only `officerA`. -/
def dbOne : DB := ⟨[], [officerA], []⟩

/-- An officer who already claimed transaction ID 222233334444. -/
def officerB : Officer :=
  { name := "B", address := "Y", mobile := "2222222222", username := "u2",
    password := "h2", subscribed := false, transactionId := some "222233334444",
    subscriptionDate := some 1, createdAt := 0 }

/-- An officer with no transaction ID yet. -/
def officerC : Officer :=
  { name := "C", address := "Z", mobile := "3333333333", username := "u3",
    password := "h3", subscribed := false, transactionId := none,
    subscriptionDate := none, createdAt := 1 }

/-- A store holding `officerB` and `officerC`. -/
def dbTwo : DB := ⟨[], [officerB, officerC], []⟩

/-- A bcrypt digest is never the plaintext it was derived from: the format
marker makes it strictly longer. -/
theorem bcryptHash_ne (p : String) : bcryptHash p ≠ p := by
  intro h
  have hlen := congrArg String.length h
  have h7 : ("$2b$10$" : String).length = 7 := rfl
  rw [bcryptHash, String.length_append, h7] at hlen
  omega

/-- A valid transaction-ID field is `some` of its unwrapped value. -/
theorem validTxnId_getD (topt : Option String) (h : validTxnId topt = true) :
    topt = some (topt.getD "") := by
  cases topt with
  | none => simp [validTxnId] at h
  | some s => rfl

/-- `updateFirst` rewrites exactly the first match. -/
theorem updateFirst_append_cons (p : α → Bool) (f : α → α) (l1 : List α) (y : α) (l2 : List α)
    (h1 : ∀ x ∈ l1, p x = false) (h2 : p y = true) :
    updateFirst p f (l1 ++ y :: l2) = l1 ++ f y :: l2 := by
  induction l1 with
  | nil => simp [updateFirst, h2]
  | cons a l ih =>
      have ha : p a = false := h1 a (List.mem_cons_self a l)
      simp only [List.cons_append, updateFirst, ha, Bool.false_eq_true, if_false,
        List.append_eq, ih (fun x hx => h1 x (List.mem_cons_of_mem a hx))]

/-- With no match, `updateFirst` changes nothing (`findOneAndUpdate` without
upsert). -/
theorem updateFirst_eq_self (p : α → Bool) (f : α → α) (l : List α)
    (h : ∀ x ∈ l, p x = false) : updateFirst p f l = l := by
  induction l with
  | nil => rfl
  | cons a l ih =>
      simp only [updateFirst, h a (List.mem_cons_self a l), Bool.false_eq_true, if_false,
        List.cons.injEq, true_and]
      exact ih (fun x hx => h x (List.mem_cons_of_mem a hx))

/-- A field untouched by the update function is untouched by `updateFirst`. -/
theorem updateFirst_map (p : α → Bool) (f : α → α) (g : α → β) (l : List α)
    (h : ∀ x, g (f x) = g x) : (updateFirst p f l).map g = l.map g := by
  induction l with
  | nil => rfl
  | cons a l ih =>
      by_cases hp : p a = true
      · simp [updateFirst, hp, h]
      · simp [updateFirst, hp, ih]

/-- Running one more request is one more `step`. -/
theorem runOps_append (db : DB) (t : List Op) (op : Op) :
    runOps db (t ++ [op]) = (step (runOps db t) op).db := by
  induction t generalizing db with
  | nil => rfl
  | cons o rest ih => simp only [List.cons_append, runOps]; exact ih (step db o).db

/-- Taking a prefix that stays inside the left part of an append. -/
theorem take_append_le (l l' : List α) (j : Nat) (h : j ≤ l.length) :
    (l ++ l').take j = l.take j :=
  List.take_eq_left_iff.mpr (Or.inr h)

/-- Positions strictly inside the old trace are unaffected by appending. -/
theorem submitSucceedsAt_append_lt (t : List Op) (op : Op) (j : Nat) (u : String)
    (hj : j < t.length) : submitSucceedsAt (t ++ [op]) j u ↔ submitSucceedsAt t j u := by
  unfold submitSucceedsAt
  rw [List.get?_append hj, take_append_le t [op] j (Nat.le_of_lt hj)]

/-- Positions beyond the extended trace hold nothing. -/
theorem submitSucceedsAt_append_gt (t : List Op) (op : Op) (j : Nat) (u : String)
    (hj : t.length < j) : ¬ submitSucceedsAt (t ++ [op]) j u := by
  rintro ⟨now, tid, hget, -⟩
  have hnone : (t ++ [op]).get? j = none := by
    rw [List.get?_eq_none, List.length_append]
    simp only [List.length_cons, List.length_nil]
    omega
  rw [hnone] at hget
  cases hget

/-- The freshly appended position is a successful submission for `u` exactly
when the appended operation is one. -/
theorem submitSucceedsAt_append_len (t : List Op) (op : Op) (u : String) :
    submitSucceedsAt (t ++ [op]) t.length u ↔
      ∃ now tid, op = Op.submitTxOp now u tid ∧
        (step (runOps DB.init t) op).status = 200 := by
  unfold submitSucceedsAt
  rw [List.get?_concat_length, List.take_left]
  constructor
  · rintro ⟨now, tid, hop, hst⟩
    have he : op = Op.submitTxOp now u tid := Option.some.inj hop
    exact ⟨now, tid, he, by rw [he]; exact hst⟩
  · rintro ⟨now, tid, he, hst⟩
    exact ⟨now, tid, by rw [he], by rw [← he]; exact hst⟩

/-- An activation-after-last-submission witness survives appending any
operation that is not a successful submission for the same username. -/
theorem activatedAfter_extend (t : List Op) (op : Op) (u : String) (tid : Option String)
    (h : activatedAfterLastSubmit t u tid)
    (hop : ∀ now2 tid2, op = Op.submitTxOp now2 u tid2 →
      (step (runOps DB.init t) op).status ≠ 200) :
    activatedAfterLastSubmit (t ++ [op]) u tid := by
  obtain ⟨i, now, hget, hst, hafter⟩ := h
  have hi : i < t.length := by
    by_contra hlt
    rw [List.get?_eq_none.mpr (Nat.le_of_not_lt hlt)] at hget
    cases hget
  refine ⟨i, now, ?_, ?_, ?_⟩
  · rw [List.get?_append hi]; exact hget
  · rw [take_append_le t [op] i (Nat.le_of_lt hi)]; exact hst
  · intro j hij hsub
    rcases Nat.lt_trichotomy j t.length with h1 | h2 | h3
    · exact hafter j hij ((submitSucceedsAt_append_lt t op j u h1).mp hsub)
    · subst h2
      obtain ⟨now2, tid2, hope, hstat⟩ := (submitSucceedsAt_append_len t op u).mp hsub
      exact hop now2 tid2 hope hstat
    · exact submitSucceedsAt_append_gt t op j u h3 hsub

/-- The inductive invariant carried along every trace: usernames are unique,
and every subscribed officer was activated after their last successful
submission. -/
def InvariantHolds (t : List Op) : Prop :=
  UsernamesNodup (runOps DB.init t).officers ∧
    ∀ o ∈ (runOps DB.init t).officers, o.subscribed = true →
      activatedAfterLastSubmit t o.username o.transactionId

/-- Invariant preservation for any operation that leaves the officer
collection untouched and is not a successful transaction submission. -/
theorem invariant_extend_same (t : List Op) (op : Op) (ih : InvariantHolds t)
    (hoff : (step (runOps DB.init t) op).db.officers = (runOps DB.init t).officers)
    (hsub : ∀ now2 u2 tid2, op = Op.submitTxOp now2 u2 tid2 →
      (step (runOps DB.init t) op).status ≠ 200) :
    InvariantHolds (t ++ [op]) := by
  obtain ⟨hnd, hinv⟩ := ih
  constructor
  · show UsernamesNodup (runOps DB.init (t ++ [op])).officers
    rw [runOps_append, hoff]
    exact hnd
  · intro o ho hs
    rw [runOps_append, hoff] at ho
    exact activatedAfter_extend t op _ _ (hinv o ho hs) (fun now2 tid2 h => hsub now2 _ tid2 h)

/-- `updateFirst` preserves username uniqueness when the update function
preserves usernames. -/
theorem UsernamesNodup_updateFirst (p : Officer → Bool) (f : Officer → Officer)
    (l : List Officer) (hf : ∀ x, (f x).username = x.username) :
    UsernamesNodup (updateFirst p f l) ↔ UsernamesNodup l := by
  unfold UsernamesNodup
  rw [updateFirst_map p f Officer.username l hf]

/-- Logins never write. -/
theorem adminLogin_db (db : DB) (u p : String) : (adminLogin db u p).db = db := by
  unfold adminLogin
  split
  · rfl
  · split <;> rfl

/-- Officer login never writes. -/
theorem login_db (db : DB) (u p : String) : (login db u p).db = db := by
  unfold login
  split
  · rfl
  · split <;> rfl

/-- The status endpoint never writes. -/
theorem officerStatus_db (db : DB) (u : String) : (officerStatus db u).db = db := by
  unfold officerStatus
  split <;> rfl

/-- Submitting a quiz result never touches the officer collection. -/
theorem submitResult_officers (db : DB) (now : Nat) (u n ph : Option String)
    (sc tot : Option Int) (d : Option Nat) :
    (submitResult db now u n ph sc tot d).db.officers = db.officers := by
  unfold submitResult
  split <;> rfl

/-- Every reachable store has pairwise-distinct officer usernames, and every
subscribed officer was activated by a matching admin call after their most
recent successful transaction submission. -/
theorem run_invariant (t : List Op) : InvariantHolds t := by
  induction t using List.reverseRecOn with
  | nil =>
      unfold InvariantHolds
      constructor
      · unfold UsernamesNodup
        decide
      · intro o ho hs
        have h0 : (runOps DB.init []).officers = [] := rfl
        rw [h0] at ho
        exact absurd ho (List.not_mem_nil o)
  | append_singleton t op ih =>
      cases op with
      | adminLoginOp u p =>
          exact invariant_extend_same t _ ih (congrArg DB.officers (adminLogin_db _ u p))
            (fun _ _ _ h => Op.noConfusion h)
      | loginOp u p =>
          exact invariant_extend_same t _ ih (congrArg DB.officers (login_db _ u p))
            (fun _ _ _ h => Op.noConfusion h)
      | statusOp u =>
          exact invariant_extend_same t _ ih (congrArg DB.officers (officerStatus_db _ u))
            (fun _ _ _ h => Op.noConfusion h)
      | listOfficersOp =>
          exact invariant_extend_same t _ ih rfl (fun _ _ _ h => Op.noConfusion h)
      | getResultsOp =>
          exact invariant_extend_same t _ ih rfl (fun _ _ _ h => Op.noConfusion h)
      | adminResetPwOp p =>
          exact invariant_extend_same t _ ih rfl (fun _ _ _ h => Op.noConfusion h)
      | submitResultOp now u n ph sc tot d =>
          exact invariant_extend_same t _ ih (submitResult_officers _ now u n ph sc tot d)
            (fun _ _ _ h => Op.noConfusion h)
      | officerResetPwOp u m pw =>
          cases hf : (runOps DB.init t).officers.find? (fun o => o.username == u && o.mobile == m) with
          | none =>
              refine invariant_extend_same t _ ih ?_ (fun _ _ _ h => Op.noConfusion h)
              show (officerResetPassword (runOps DB.init t) u m pw).db.officers
                  = (runOps DB.init t).officers
              unfold officerResetPassword
              rw [hf]
          | some y =>
              have hoff : (step (runOps DB.init t) (Op.officerResetPwOp u m pw)).db.officers
                  = updateFirst (fun o => o.username == u && o.mobile == m)
                      (fun o => { o with password := bcryptHash pw })
                      (runOps DB.init t).officers := by
                show (officerResetPassword (runOps DB.init t) u m pw).db.officers = _
                unfold officerResetPassword
                rw [hf]
              unfold InvariantHolds
              constructor
              · show UsernamesNodup (runOps DB.init (t ++ [Op.officerResetPwOp u m pw])).officers
                rw [runOps_append, hoff]
                refine (UsernamesNodup_updateFirst _ _ _ ?_).mpr ih.1
                intro x
                rfl
              · intro o ho hs
                rw [runOps_append, hoff] at ho
                obtain ⟨hpy, l1, l2, hdec, hl1⟩ := List.find?_eq_some.mp hf
                have hup := updateFirst_append_cons
                    (fun o => o.username == u && o.mobile == m)
                    (fun o => { o with password := bcryptHash pw }) l1 y l2
                    (fun x hx => by have h2 := hl1 x hx; rwa [Bool.not_eq_true'] at h2) hpy
                rw [hdec, hup] at ho
                rcases List.mem_append.mp ho with h1 | h2
                · have ho' : o ∈ (runOps DB.init t).officers := by
                    rw [hdec]; exact List.mem_append_left _ h1
                  exact activatedAfter_extend t _ _ _ (ih.2 o ho' hs) (fun _ _ h => Op.noConfusion h)
                · rcases List.mem_cons.mp h2 with h3 | h4
                  · subst h3
                    have hy : y ∈ (runOps DB.init t).officers := by
                      rw [hdec]; exact List.mem_append_right _ (List.mem_cons_self y l2)
                    exact activatedAfter_extend t _ _ _ (ih.2 y hy hs) (fun _ _ h => Op.noConfusion h)
                  · have ho' : o ∈ (runOps DB.init t).officers := by
                      rw [hdec]; exact List.mem_append_right _ (List.mem_cons_of_mem y h4)
                    exact activatedAfter_extend t _ _ _ (ih.2 o ho' hs) (fun _ _ h => Op.noConfusion h)
      | signupOp now n a m u pw =>
          cases hm : regexMobile m with
          | false =>
              refine invariant_extend_same t _ ih ?_ (fun _ _ _ h => Op.noConfusion h)
              show (signup (runOps DB.init t) now n a m u pw).db.officers
                  = (runOps DB.init t).officers
              simp [signup, hm]
          | true =>
              cases hf : (runOps DB.init t).officers.find? (fun o => o.username == u || o.mobile == m) with
              | some e =>
                  refine invariant_extend_same t _ ih ?_ (fun _ _ _ h => Op.noConfusion h)
                  show (signup (runOps DB.init t) now n a m u pw).db.officers
                      = (runOps DB.init t).officers
                  simp [signup, hm, hf]
              | none =>
                  have hoff : (step (runOps DB.init t) (Op.signupOp now n a m u pw)).db.officers
                      = (runOps DB.init t).officers ++ [mkOfficer now n a m u (bcryptHash pw)] := by
                    show (signup (runOps DB.init t) now n a m u pw).db.officers = _
                    simp [signup, hm, hf]
                  have hfresh : ∀ x ∈ (runOps DB.init t).officers, x.username ≠ u := by
                    intro x hx he
                    have := List.find?_eq_none.mp hf x hx
                    simp [he] at this
                  unfold InvariantHolds
                  constructor
                  · show UsernamesNodup (runOps DB.init (t ++ [Op.signupOp now n a m u pw])).officers
                    rw [runOps_append, hoff]
                    unfold UsernamesNodup
                    rw [List.map_append, List.nodup_append]
                    refine ⟨ih.1, by simp, ?_⟩
                    intro x hx hx2
                    simp [mkOfficer] at hx2
                    subst hx2
                    obtain ⟨o2, ho2, ho2u⟩ := List.mem_map.mp hx
                    exact hfresh o2 ho2 ho2u
                  · intro o ho hs
                    rw [runOps_append, hoff] at ho
                    rcases List.mem_append.mp ho with h1 | h2
                    · exact activatedAfter_extend t _ _ _ (ih.2 o h1 hs) (fun _ _ h => Op.noConfusion h)
                    · rw [List.mem_singleton] at h2
                      subst h2
                      simp [mkOfficer] at hs
      | submitTxOp now u topt =>
          cases hv : validTxnId topt with
          | false =>
              refine invariant_extend_same t _ ih ?_ ?_
              · show (submitTransaction (runOps DB.init t) now u topt).db.officers
                    = (runOps DB.init t).officers
                simp [submitTransaction, hv]
              · intro now2 u2 tid2 h
                show (submitTransaction (runOps DB.init t) now u topt).status ≠ 200
                simp [submitTransaction, hv]
          | true =>
              cases hd : (runOps DB.init t).officers.find?
                  (fun o => o.transactionId == some (topt.getD "")) with
              | some e =>
                  refine invariant_extend_same t _ ih ?_ ?_
                  · show (submitTransaction (runOps DB.init t) now u topt).db.officers
                        = (runOps DB.init t).officers
                    simp [submitTransaction, hv, hd]
                  · intro now2 u2 tid2 h
                    show (submitTransaction (runOps DB.init t) now u topt).status ≠ 200
                    simp [submitTransaction, hv, hd]
              | none =>
                  cases hfu : (runOps DB.init t).officers.find? (fun o => o.username == u) with
                  | none =>
                      refine invariant_extend_same t _ ih ?_ ?_
                      · show (submitTransaction (runOps DB.init t) now u topt).db.officers
                            = (runOps DB.init t).officers
                        simp [submitTransaction, hv, hd, hfu]
                      · intro now2 u2 tid2 h
                        show (submitTransaction (runOps DB.init t) now u topt).status ≠ 200
                        simp [submitTransaction, hv, hd, hfu]
                  | some y =>
                      have hoff : (step (runOps DB.init t) (Op.submitTxOp now u topt)).db.officers
                          = updateFirst (fun o => o.username == u)
                              (fun o => { o with transactionId := some (topt.getD ""), subscriptionDate := some now, subscribed := false })
                              (runOps DB.init t).officers := by
                        show (submitTransaction (runOps DB.init t) now u topt).db.officers = _
                        simp [submitTransaction, hv, hd, hfu]
                      unfold InvariantHolds
                      constructor
                      · show UsernamesNodup
                            (runOps DB.init (t ++ [Op.submitTxOp now u topt])).officers
                        rw [runOps_append, hoff]
                        refine (UsernamesNodup_updateFirst _ _ _ ?_).mpr ih.1
                        intro x
                        rfl
                      · intro o ho hs
                        rw [runOps_append, hoff] at ho
                        obtain ⟨hpy, l1, l2, hdec, hl1⟩ := List.find?_eq_some.mp hfu
                        have hyu : y.username = u := eq_of_beq hpy
                        have hup := updateFirst_append_cons
                            (fun o => o.username == u)
                            (fun o => { o with transactionId := some (topt.getD ""), subscriptionDate := some now, subscribed := false })
                            l1 y l2
                            (fun x hx => by have h2 := hl1 x hx; rwa [Bool.not_eq_true'] at h2) hpy
                        rw [hdec, hup] at ho
                        rcases List.mem_append.mp ho with h1 | h2
                        · have hne : o.username ≠ u := by
                            have := hl1 o h1
                            simpa using this
                          have ho' : o ∈ (runOps DB.init t).officers := by
                            rw [hdec]; exact List.mem_append_left _ h1
                          refine activatedAfter_extend t _ _ _ (ih.2 o ho' hs) ?_
                          intro now2 tid2 h
                          injection h with e1 e2 e3
                          exact absurd e2.symm hne
                        · rcases List.mem_cons.mp h2 with h3 | h4
                          · subst h3
                            exact Bool.noConfusion hs
                          · have hne : o.username ≠ u := by
                              intro he
                              have hnd := ih.1
                              unfold UsernamesNodup at hnd
                              rw [hdec, List.map_append] at hnd
                              have hr := List.Nodup.of_append_right hnd
                              rw [List.map_cons] at hr
                              have hnin := (List.nodup_cons.mp hr).1
                              exact hnin (by
                                rw [hyu, ← he]
                                exact List.mem_map.mpr ⟨o, h4, rfl⟩)
                            have ho' : o ∈ (runOps DB.init t).officers := by
                              rw [hdec]; exact List.mem_append_right _ (List.mem_cons_of_mem y h4)
                            refine activatedAfter_extend t _ _ _ (ih.2 o ho' hs) ?_
                            intro now2 tid2 h
                            injection h with e1 e2 e3
                            exact absurd e2.symm hne
      | activateOp now topt =>
          cases hv : validTxnId topt with
          | false =>
              refine invariant_extend_same t _ ih ?_ (fun _ _ _ h => Op.noConfusion h)
              show (adminActivate (runOps DB.init t) now topt).db.officers
                  = (runOps DB.init t).officers
              simp [adminActivate, hv]
          | true =>
              cases hd : (runOps DB.init t).officers.find?
                  (fun o => o.transactionId == some (topt.getD "")) with
              | none =>
                  refine invariant_extend_same t _ ih ?_ (fun _ _ _ h => Op.noConfusion h)
                  show (adminActivate (runOps DB.init t) now topt).db.officers
                      = (runOps DB.init t).officers
                  simp [adminActivate, hv, hd]
              | some y =>
                  cases hys : y.subscribed with
                  | true =>
                      refine invariant_extend_same t _ ih ?_ (fun _ _ _ h => Op.noConfusion h)
                      show (adminActivate (runOps DB.init t) now topt).db.officers
                          = (runOps DB.init t).officers
                      simp [adminActivate, hv, hd, hys]
                  | false =>
                      have hoff : (step (runOps DB.init t) (Op.activateOp now topt)).db.officers
                          = updateFirst (fun o => o.transactionId == some (topt.getD ""))
                              (fun o => { o with subscribed := true, subscriptionDate := some now })
                              (runOps DB.init t).officers := by
                        show (adminActivate (runOps DB.init t) now topt).db.officers = _
                        simp [adminActivate, hv, hd, hys]
                      unfold InvariantHolds
                      constructor
                      · show UsernamesNodup
                            (runOps DB.init (t ++ [Op.activateOp now topt])).officers
                        rw [runOps_append, hoff]
                        refine (UsernamesNodup_updateFirst _ _ _ ?_).mpr ih.1
                        intro x
                        rfl
                      · intro o ho hs
                        rw [runOps_append, hoff] at ho
                        obtain ⟨hpy, l1, l2, hdec, hl1⟩ := List.find?_eq_some.mp hd
                        have hyt : y.transactionId = topt := by
                          rw [eq_of_beq hpy]
                          exact (validTxnId_getD topt hv).symm
                        have hup := updateFirst_append_cons
                            (fun o => o.transactionId == some (topt.getD ""))
                            (fun o => { o with subscribed := true, subscriptionDate := some now })
                            l1 y l2
                            (fun x hx => by have h2 := hl1 x hx; rwa [Bool.not_eq_true'] at h2) hpy
                        rw [hdec, hup] at ho
                        rcases List.mem_append.mp ho with h1 | h2
                        · have ho' : o ∈ (runOps DB.init t).officers := by
                            rw [hdec]; exact List.mem_append_left _ h1
                          exact activatedAfter_extend t _ _ _ (ih.2 o ho' hs)
                            (fun _ _ h => Op.noConfusion h)
                        · rcases List.mem_cons.mp h2 with h3 | h4
                          · subst h3
                            refine ⟨t.length, now, ?_, ?_, ?_⟩
                            · rw [List.get?_concat_length]
                              show some (Op.activateOp now topt)
                                  = some (Op.activateOp now y.transactionId)
                              rw [hyt]
                            · rw [List.take_left]
                              show (step (runOps DB.init t)
                                  (Op.activateOp now y.transactionId)).status = 200
                              rw [hyt]
                              show (adminActivate (runOps DB.init t) now topt).status = 200
                              simp [adminActivate, hv, hd, hys]
                            · intro j hj
                              exact submitSucceedsAt_append_gt t _ j _ hj
                          · have ho' : o ∈ (runOps DB.init t).officers := by
                              rw [hdec]; exact List.mem_append_right _ (List.mem_cons_of_mem y h4)
                            exact activatedAfter_extend t _ _ _ (ih.2 o ho' hs)
                              (fun _ _ h => Op.noConfusion h)

/-- Deleting the key `k` from a field list whose values never contain `k`
leaves no occurrence of `k` at all. -/
theorem noKeyFields_deleteKey (k : String) (fields : List (String × JVal))
    (h : ∀ f ∈ fields, noKeyJ k f.2 = true) :
    noKeyFields k (deleteKey k fields) = true := by
  induction fields with
  | nil => rfl
  | cons f rest ih =>
      obtain ⟨key, v⟩ := f
      have hv : noKeyJ k v = true := h (key, v) (List.mem_cons_self _ _)
      have hrest := ih (fun g hg => h g (List.mem_cons_of_mem _ hg))
      unfold deleteKey at hrest ⊢
      cases hk : key != k with
      | false => simpa [List.filter_cons, hk] using hrest
      | true => simp [List.filter_cons, hk, noKeyFields, hv, hrest]

/-- Every value inside a serialized officer document is atomic, so it never
contains any JSON key. -/
theorem officerToObject_values (k : String) (o : Officer) :
    ∀ f ∈ officerToObject o, noKeyJ k f.2 = true := by
  intro f hf
  unfold officerToObject at hf
  simp only [List.mem_cons, List.not_mem_nil, or_false] at hf
  rcases hf with rfl | rfl | rfl | rfl | rfl | rfl | rfl | rfl | rfl
  · rfl
  · rfl
  · rfl
  · rfl
  · rfl
  · rfl
  · cases o.transactionId <;> rfl
  · cases o.subscriptionDate <;> rfl
  · rfl

/-- An officer document with the password deleted contains no password key. -/
theorem noKey_password_strippedOfficer (o : Officer) :
    noKeyFields "password" (deleteKey "password" (officerToObject o)) = true :=
  noKeyFields_deleteKey "password" (officerToObject o) (officerToObject_values "password" o)

/-- C4: In every state reachable from the initial state by any sequence of
handler operations, every officer record with `subscribed = true` had an
admin-activation operation applied that matched its `transactionId` after its
most recent transaction submission (signup creates officers with `subscribed`
defaulting to `false`, submit-transaction writes `subscribed = false`, and
only admin-activate writes `subscribed = true`). -/
theorem subscribed_only_after_matching_activation (t : List Op) (o : Officer)
    (ho : o ∈ (runOps DB.init t).officers) (hs : o.subscribed = true) :
    activatedAfterLastSubmit t o.username o.transactionId :=
  (run_invariant t).2 o ho hs

/-- Witness for C4 at the concrete demonstration trace. -/
theorem subscribed_only_after_matching_activation_witness :
    activatedAfterLastSubmit demoTrace "u1" (some "123456789012") :=
  subscribed_only_after_matching_activation demoTrace demoOfficer (by decide) (by decide)

/-- C1: For a submit-transaction request with a well-formed 12-digit
transaction ID not stored on any officer: if an officer with the requested
username exists (first match in the collection), that officer's record gets
the submitted ID, the submission date and `subscribed = false` (even if it was
`true` before), everything else is unchanged and the ID is echoed with 200;
if no officer has that username, the handler returns 404 and the store is
untouched. -/
theorem submitTransaction_fresh_spec (db : DB) (now : Nat) (u tid : String)
    (hv : validTxnId (some tid) = true)
    (hfresh : db.officers.find? (fun o => o.transactionId == some tid) = none) :
    (∀ l1 y l2, db.officers = l1 ++ y :: l2 →
       (∀ x ∈ l1, (x.username == u) = false) → (y.username == u) = true →
       (submitTransaction db now u (some tid)).status = 200 ∧
       (submitTransaction db now u (some tid)).body
         = JVal.obj [("message", JVal.str "Transaction submitted successfully"),
                     ("transactionId", JVal.str tid)] ∧
       (submitTransaction db now u (some tid)).db
         = { db with officers := l1 ++ { y with transactionId := some tid, subscriptionDate := some now, subscribed := false } :: l2 }) ∧
    (db.officers.find? (fun o => o.username == u) = none →
       (submitTransaction db now u (some tid)).status = 404 ∧
       (submitTransaction db now u (some tid)).db = db) := by
  constructor
  · intro l1 y l2 hdec hl1 hy
    have hfind : db.officers.find? (fun o => o.username == u) = some y :=
      List.find?_eq_some.mpr ⟨hy, l1, l2, hdec, fun x hx => by
        rw [Bool.not_eq_true']; exact hl1 x hx⟩
    have hup := updateFirst_append_cons (fun o => o.username == u)
        (fun o => { o with transactionId := some tid, subscriptionDate := some now, subscribed := false })
        l1 y l2 hl1 hy
    refine ⟨?_, ?_, ?_⟩
    · simp [submitTransaction, hv, hfresh, hfind]
    · simp [submitTransaction, hv, hfresh, hfind]
    · have hdb : (submitTransaction db now u (some tid)).db
          = { db with officers := updateFirst (fun o => o.username == u) (fun o => { o with transactionId := some tid, subscriptionDate := some now, subscribed := false }) db.officers } := by
        simp [submitTransaction, hv, hfresh, hfind]
      rw [hdb, hdec, hup]
  · intro hnone
    constructor
    · simp [submitTransaction, hv, hfresh, hnone]
    · simp [submitTransaction, hv, hfresh, hnone]

/-- Witness for C1: `officerA` was subscribed, yet a fresh submission resets
the flag and stores the new transaction data. -/
theorem submitTransaction_fresh_spec_witness :
    (submitTransaction dbOne 5 "u1" (some "123456789012")).status = 200 ∧
    (submitTransaction dbOne 5 "u1" (some "123456789012")).db
      = { dbOne with officers := [{ officerA with transactionId := some "123456789012", subscriptionDate := some 5, subscribed := false }] } := by
  have h := (submitTransaction_fresh_spec dbOne 5 "u1" "123456789012" (by decide)
      (by decide)).1 [] officerA [] (by decide)
      (fun x hx => absurd hx (List.not_mem_nil x)) (by decide)
  exact ⟨h.1, h.2.2⟩

/-- C3: Submitting a 12-digit transaction ID that some officer already holds
returns 400 and modifies nothing; in particular the requesting officer's
record, and with it an unsubscribed requester's `subscribed = false` flag, is
unchanged. -/
theorem submitTransaction_duplicate_spec (db : DB) (now : Nat) (u tid : String) (y : Officer)
    (hv : validTxnId (some tid) = true)
    (hdup : db.officers.find? (fun o => o.transactionId == some tid) = some y) :
    (submitTransaction db now u (some tid)).status = 400 ∧
    (submitTransaction db now u (some tid)).db = db ∧
    ∀ o, db.officers.find? (fun x => x.username == u) = some o → o.subscribed = false →
      (submitTransaction db now u (some tid)).db.officers.find? (fun x => x.username == u)
          = some o ∧ o.subscribed = false := by
  refine ⟨?_, ?_, ?_⟩
  · simp [submitTransaction, hv, hdup]
  · simp [submitTransaction, hv, hdup]
  · intro o hfo hso
    have hdb : (submitTransaction db now u (some tid)).db = db := by
      simp [submitTransaction, hv, hdup]
    rw [hdb]
    exact ⟨hfo, hso⟩

/-- Witness for C3: officer `u3` submits the ID already claimed by `u2`. -/
theorem submitTransaction_duplicate_spec_witness :
    (submitTransaction dbTwo 9 "u3" (some "222233334444")).status = 400 ∧
    (submitTransaction dbTwo 9 "u3" (some "222233334444")).db = dbTwo ∧
    (submitTransaction dbTwo 9 "u3" (some "222233334444")).db.officers.find?
        (fun x => x.username == "u3") = some officerC ∧
    officerC.subscribed = false := by
  have h := submitTransaction_duplicate_spec dbTwo 9 "u3" "222233334444" officerB
      (by decide) (by decide)
  have h3 := h.2.2 officerC (by decide) (by decide)
  exact ⟨h.1, h.2.1, h3.1, h3.2⟩

/-- C2: Admin activation rejects a missing or malformed transaction ID with
400, returns 404 when no officer holds the ID, returns 400 and changes
nothing when the holder is already subscribed, and otherwise subscribes the
holder, stamps the subscription date, returns 200 — after which the identical
call is rejected with 400 and writes nothing. -/
theorem adminActivate_spec (db : DB) (now now2 : Nat) (topt : Option String) :
    (validTxnId topt = false →
       (adminActivate db now topt).status = 400 ∧ (adminActivate db now topt).db = db) ∧
    (validTxnId topt = true →
       db.officers.find? (fun o => o.transactionId == some (topt.getD "")) = none →
       (adminActivate db now topt).status = 404 ∧ (adminActivate db now topt).db = db) ∧
    (∀ y, validTxnId topt = true →
       db.officers.find? (fun o => o.transactionId == some (topt.getD "")) = some y →
       y.subscribed = true →
       (adminActivate db now topt).status = 400 ∧ (adminActivate db now topt).db = db) ∧
    (∀ l1 y l2, validTxnId topt = true → db.officers = l1 ++ y :: l2 →
       (∀ x ∈ l1, (x.transactionId == some (topt.getD "")) = false) →
       (y.transactionId == some (topt.getD "")) = true → y.subscribed = false →
       (adminActivate db now topt).status = 200 ∧
       (adminActivate db now topt).db
         = { db with officers := l1 ++ { y with subscribed := true, subscriptionDate := some now } :: l2 } ∧
       (adminActivate (adminActivate db now topt).db now2 topt).status = 400 ∧
       (adminActivate (adminActivate db now topt).db now2 topt).db
         = (adminActivate db now topt).db) := by
  refine ⟨?_, ?_, ?_, ?_⟩
  · intro hv
    constructor
    · simp [adminActivate, hv]
    · simp [adminActivate, hv]
  · intro hv hnone
    constructor
    · simp [adminActivate, hv, hnone]
    · simp [adminActivate, hv, hnone]
  · intro y hv hfind hsub
    constructor
    · simp [adminActivate, hv, hfind, hsub]
    · simp [adminActivate, hv, hfind, hsub]
  · intro l1 y l2 hv hdec hl1 hy hsub
    have hfind : db.officers.find? (fun o => o.transactionId == some (topt.getD "")) = some y :=
      List.find?_eq_some.mpr ⟨hy, l1, l2, hdec, fun x hx => by
        rw [Bool.not_eq_true']; exact hl1 x hx⟩
    have hup := updateFirst_append_cons (fun o => o.transactionId == some (topt.getD ""))
        (fun o => { o with subscribed := true, subscriptionDate := some now })
        l1 y l2 hl1 hy
    have hdb : (adminActivate db now topt).db
        = { db with officers := l1 ++ { y with subscribed := true, subscriptionDate := some now } :: l2 } := by
      have h0 : (adminActivate db now topt).db
          = { db with officers := updateFirst (fun o => o.transactionId == some (topt.getD "")) (fun o => { o with subscribed := true, subscriptionDate := some now }) db.officers } := by
        simp [adminActivate, hv, hfind, hsub]
      rw [h0, hdec, hup]
    have hfind2 : (l1 ++ ({ y with subscribed := true, subscriptionDate := some now } : Officer) :: l2).find?
        (fun o => o.transactionId == some (topt.getD ""))
          = some { y with subscribed := true, subscriptionDate := some now } :=
      List.find?_eq_some.mpr ⟨hy, l1, l2, rfl, fun x hx => by
        rw [Bool.not_eq_true']; exact hl1 x hx⟩
    refine ⟨?_, hdb, ?_, ?_⟩
    · simp [adminActivate, hv, hfind, hsub]
    · rw [hdb]
      simp [adminActivate, hv, hfind2]
    · rw [hdb]
      simp [adminActivate, hv, hfind2]

/-- Witness for C2: activate `officerB`'s transaction, then fail to activate
it again. -/
theorem adminActivate_spec_witness :
    (adminActivate dbTwo 4 (some "222233334444")).status = 200 ∧
    (adminActivate dbTwo 4 (some "222233334444")).db
      = { dbTwo with officers := [{ officerB with subscribed := true, subscriptionDate := some 4 }, officerC] } ∧
    (adminActivate (adminActivate dbTwo 4 (some "222233334444")).db 6 (some "222233334444")).status = 400 := by
  have h := (adminActivate_spec dbTwo 4 6 (some "222233334444")).2.2.2 [] officerB [officerC]
      (by decide) (by decide) (fun x hx => absurd hx (List.not_mem_nil x)) (by decide) (by decide)
  exact ⟨h.1, h.2.1, h.2.2.1⟩

/-- C5: Signup rejects a malformed mobile with 400; rejects a duplicate
username or mobile with 400, leaving the store (and so the existing officer's
record) untouched; otherwise it appends the new officer with schema defaults
and returns 200 with the created record stripped of the password field. -/
theorem signup_spec (db : DB) (now : Nat) (n a m u pw : String) :
    (regexMobile m = false →
       (signup db now n a m u pw).status = 400 ∧ (signup db now n a m u pw).db = db) ∧
    (∀ e, regexMobile m = true →
       db.officers.find? (fun o => o.username == u || o.mobile == m) = some e →
       (signup db now n a m u pw).status = 400 ∧ (signup db now n a m u pw).db = db ∧
       e ∈ db.officers) ∧
    (regexMobile m = true →
       db.officers.find? (fun o => o.username == u || o.mobile == m) = none →
       (signup db now n a m u pw).status = 200 ∧
       (signup db now n a m u pw).db
         = { db with officers := db.officers ++ [mkOfficer now n a m u (bcryptHash pw)] } ∧
       (signup db now n a m u pw).body
         = JVal.obj [("message", JVal.str "Officer created successfully"),
                     ("officer", JVal.obj (deleteKey "password" (officerToObject (mkOfficer now n a m u (bcryptHash pw)))))] ∧
       noKeyJ "password" (signup db now n a m u pw).body = true) := by
  refine ⟨?_, ?_, ?_⟩
  · intro hm
    constructor
    · simp [signup, hm]
    · simp [signup, hm]
  · intro e hm hfind
    refine ⟨?_, ?_, List.mem_of_find?_eq_some hfind⟩
    · simp [signup, hm, hfind]
    · simp [signup, hm, hfind]
  · intro hm hfind
    have hbody : (signup db now n a m u pw).body
        = JVal.obj [("message", JVal.str "Officer created successfully"),
                    ("officer", JVal.obj (deleteKey "password" (officerToObject (mkOfficer now n a m u (bcryptHash pw)))))] := by
      simp [signup, hm, hfind]
    refine ⟨?_, ?_, hbody, ?_⟩
    · simp [signup, hm, hfind]
    · simp [signup, hm, hfind]
    · rw [hbody]
      simp [noKeyJ, noKeyFields, noKey_password_strippedOfficer, mkOfficer]

/-- Witness for C5: a successful signup against the freshly initialized
store. -/
theorem signup_spec_witness :
    (signup DB.init 4 "N" "Addr" "0123456789" "u5" "pw").status = 200 ∧
    (signup DB.init 4 "N" "Addr" "0123456789" "u5" "pw").db
      = { DB.init with officers := [mkOfficer 4 "N" "Addr" "0123456789" "u5" (bcryptHash "pw")] } ∧
    noKeyJ "password" (signup DB.init 4 "N" "Addr" "0123456789" "u5" "pw").body = true := by
  have h := (signup_spec DB.init 4 "N" "Addr" "0123456789" "u5" "pw").2.2 (by decide) (by decide)
  exact ⟨h.1, h.2.1, h.2.2.2⟩

/-- An array of password-stripped officer documents contains no password key. -/
theorem noKeyElems_strippedOfficers (l : List Officer) :
    noKeyElems "password"
      (l.map (fun o => JVal.obj (deleteKey "password" (officerToObject o)))) = true := by
  induction l with
  | nil => rfl
  | cons o rest ih =>
      rw [List.map_cons, noKeyElems]
      simp [noKeyJ, noKey_password_strippedOfficer, ih]

/-- C6: A successful signup stores the bcrypt digest of the submitted
plaintext, which is never the plaintext itself, and none of the success
responses of signup, officer login or the admin officer listing contains a
password field anywhere. -/
theorem passwords_hashed_and_never_exposed :
    (∀ db now n a m u pw, regexMobile m = true →
       db.officers.find? (fun o => o.username == u || o.mobile == m) = none →
       (signup db now n a m u pw).db.officers
         = db.officers ++ [mkOfficer now n a m u (bcryptHash pw)] ∧
       (mkOfficer now n a m u (bcryptHash pw)).password = bcryptHash pw ∧
       (mkOfficer now n a m u (bcryptHash pw)).password ≠ pw ∧
       noKeyJ "password" (signup db now n a m u pw).body = true) ∧
    (∀ db u pw, (login db u pw).status = 200 →
       noKeyJ "password" (login db u pw).body = true) ∧
    (∀ db, noKeyJ "password" (getOfficers db).body = true) := by
  refine ⟨?_, ?_, ?_⟩
  · intro db now n a m u pw hm hfind
    refine ⟨?_, rfl, bcryptHash_ne pw, ?_⟩
    · simp [signup, hm, hfind]
    · have hbody : (signup db now n a m u pw).body
          = JVal.obj [("message", JVal.str "Officer created successfully"),
                      ("officer", JVal.obj (deleteKey "password" (officerToObject (mkOfficer now n a m u (bcryptHash pw)))))] := by
        simp [signup, hm, hfind]
      rw [hbody]
      simp [noKeyJ, noKeyFields, noKey_password_strippedOfficer, mkOfficer]
  · intro db u pw hst
    cases hf : db.officers.find? (fun o => o.username == u) with
    | none =>
        unfold login at hst
        rw [hf] at hst
        simp at hst
    | some officer =>
        cases hc : bcryptCompare pw officer.password with
        | false =>
            unfold login at hst
            rw [hf] at hst
            simp [hc] at hst
        | true =>
            have hbody : (login db u pw).body
                = JVal.obj [("message", JVal.str "Login successful"),
                            ("officer", JVal.obj (deleteKey "password" (officerToObject officer))),
                            ("subscribed", JVal.bool officer.subscribed)] := by
              simp [login, hf, hc]
            rw [hbody]
            simp [noKeyJ, noKeyFields, noKey_password_strippedOfficer]
            constructor
            · cases officer.transactionId <;> rfl
            · cases officer.subscriptionDate <;> rfl
  · intro db
    show noKeyElems "password" _ = true
    exact noKeyElems_strippedOfficers (sortDescBy Officer.createdAt db.officers)

/-- Witness for C6: instantiate the signup clause on the initialized store. -/
theorem passwords_hashed_and_never_exposed_witness :
    (signup DB.init 3 "N" "Y" "0123456789" "u6" "pw6").db.officers
      = [mkOfficer 3 "N" "Y" "0123456789" "u6" (bcryptHash "pw6")] ∧
    (mkOfficer 3 "N" "Y" "0123456789" "u6" (bcryptHash "pw6")).password = bcryptHash "pw6" ∧
    (mkOfficer 3 "N" "Y" "0123456789" "u6" (bcryptHash "pw6")).password ≠ "pw6" ∧
    noKeyJ "password" (signup DB.init 3 "N" "Y" "0123456789" "u6" "pw6").body = true :=
  passwords_hashed_and_never_exposed.1 DB.init 3 "N" "Y" "0123456789" "u6" "pw6"
    (by decide) (by decide)

/-- C7 counterexample: with username present as the empty string (hence not
missing) and score and total present, the handler does not append a record
and does not return 200 — it rejects with 400 — contradicting the claim's
"otherwise it appends exactly one result record ... and returns 200". -/
theorem submitResult_empty_username_cex :
    (some "" : Option String) ≠ none ∧ (some (1 : Int) : Option Int) ≠ none ∧
    (some (2 : Int) : Option Int) ≠ none ∧
    (submitResult DB.init 5 (some "") none none (some 1) (some 2) none).status = 400 ∧
    ¬ (submitResult DB.init 5 (some "") none none (some 1) (some 2) none).status = 200 ∧
    (submitResult DB.init 5 (some "") none none (some 1) (some 2) none).db.results
      = DB.init.results := by
  refine ⟨by decide, by decide, by decide, by decide, by decide, by decide⟩

/-- C7 (amended): a missing username, score or total is rejected with 400 and
stores nothing; so is an empty-string username (JS falsiness); otherwise,
with a present, nonempty username and present score and total, exactly one
result record is appended — with name defaulting to "Unknown", phone to
"Not Provided" and date to the submission time when absent — and 200 is
returned. -/
theorem submitResult_spec (db : DB) (now : Nat) (username name phone : Option String)
    (score total : Option Int) (date : Option Nat) :
    ((username = none ∨ score = none ∨ total = none) →
       (submitResult db now username name phone score total date).status = 400 ∧
       (submitResult db now username name phone score total date).db = db) ∧
    (username = some "" →
       (submitResult db now username name phone score total date).status = 400 ∧
       (submitResult db now username name phone score total date).db = db) ∧
    (∀ u s tt, username = some u → u ≠ "" → score = some s → total = some tt →
       (submitResult db now username name phone score total date).status = 200 ∧
       ∃ r0, (submitResult db now username name phone score total date).db
           = { db with results := db.results ++ [r0] } ∧
         r0.username = u ∧ r0.score = s ∧ r0.total = tt ∧
         (name = none → r0.name = "Unknown") ∧
         (phone = none → r0.phone = "Not Provided") ∧
         (date = none → r0.date = now)) := by
  refine ⟨?_, ?_, ?_⟩
  · intro h
    have hcond : (!(jsTruthyStr username) || score == none || total == none) = true := by
      rcases h with rfl | rfl | rfl <;> simp [jsTruthyStr]
    constructor
    · simp [submitResult, hcond]
    · simp [submitResult, hcond]
  · intro h
    subst h
    constructor
    · simp [submitResult, jsTruthyStr]
    · simp [submitResult, jsTruthyStr]
  · intro u s tt hu hne hs ht
    subst hu; subst hs; subst ht
    have htru : jsTruthyStr (some u) = true := by
      simp [jsTruthyStr, hne]
    refine ⟨by simp [submitResult, htru], ?_⟩
    refine ⟨{ username := u, name := strOr name "Unknown", phone := strOr phone "Not Provided", score := s, total := tt, date := jsDateOr date now }, ?_, rfl, rfl, rfl, ?_, ?_, ?_⟩
    · simp [submitResult, htru]
    · intro h; subst h; rfl
    · intro h; subst h; rfl
    · intro h; subst h; rfl

/-- Witness for C7 (amended): all three defaults fire on a minimal request. -/
theorem submitResult_spec_witness :
    (submitResult DB.init 7 (some "u7") none none (some 3) (some 10) none).status = 200 ∧
    ∃ r0, (submitResult DB.init 7 (some "u7") none none (some 3) (some 10) none).db
        = { DB.init with results := DB.init.results ++ [r0] } ∧
      r0.username = "u7" ∧ r0.score = 3 ∧ r0.total = 10 ∧
      ((none : Option String) = none → r0.name = "Unknown") ∧
      ((none : Option String) = none → r0.phone = "Not Provided") ∧
      ((none : Option Nat) = none → r0.date = 7) :=
  (submitResult_spec DB.init 7 (some "u7") none none (some 3) (some 10) none).2.2
    "u7" 3 10 rfl (by decide) rfl rfl

/-- C8: The bootstrap routine writes nothing when an admin named "admin"
exists, creates exactly the default record otherwise, and iterating it any
positive number of times from the empty store yields exactly one admin
record. -/
theorem initializeAdmin_idempotent :
    (∀ db, db.admins.any (fun a => a.username == "admin") = true →
       initializeAdmin db = db) ∧
    (∀ db, db.admins.any (fun a => a.username == "admin") = false →
       initializeAdmin db
         = { db with admins := db.admins ++ [{ username := "admin", password := bcryptHash "admin123" }] }) ∧
    (∀ k, 1 ≤ k → (Nat.iterate initializeAdmin k DB.empty).admins
       = [{ username := "admin", password := bcryptHash "admin123" }]) := by
  refine ⟨?_, ?_, ?_⟩
  · intro db h
    simp [initializeAdmin, h]
  · intro db h
    simp [initializeAdmin, h]
  · intro k hk
    induction k with
    | zero => omega
    | succ j ihj =>
        rcases Nat.lt_or_ge 1 (j + 1) with h2 | h1
        · have hj : 1 ≤ j := by omega
          have hprev := ihj hj
          rw [Function.iterate_succ_apply']
          have hany : (Nat.iterate initializeAdmin j DB.empty).admins.any
              (fun a => a.username == "admin") = true := by
            rw [hprev]; decide
          simp [initializeAdmin, hany, hprev]
        · have hj : j = 0 := by omega
          subst hj
          decide

/-- Witness for C8: three runs from the empty store leave one admin. -/
theorem initializeAdmin_idempotent_witness :
    (Nat.iterate initializeAdmin 3 DB.empty).admins
      = [{ username := "admin", password := bcryptHash "admin123" }] :=
  initializeAdmin_idempotent.2.2 3 (by decide)

/-- C9: The admin password reset always answers 200 with its confirmation
message, touches neither officers nor results, performs no write at all when
no record with username "admin" exists (there is no 404 branch), and when
one exists replaces exactly that record's password with the new hash. -/
theorem adminResetPassword_spec (db : DB) (pw : String) :
    (adminResetPassword db pw).status = 200 ∧
    (adminResetPassword db pw).body = msgBody "Admin password updated" ∧
    (adminResetPassword db pw).db.officers = db.officers ∧
    (adminResetPassword db pw).db.results = db.results ∧
    (db.admins.find? (fun a => a.username == "admin") = none →
       (adminResetPassword db pw).db = db) ∧
    (∀ l1 y l2, db.admins = l1 ++ y :: l2 →
       (∀ x ∈ l1, (x.username == "admin") = false) → (y.username == "admin") = true →
       (adminResetPassword db pw).db.admins
         = l1 ++ { y with password := bcryptHash pw } :: l2) := by
  refine ⟨rfl, rfl, rfl, rfl, ?_, ?_⟩
  · intro h
    have hall : ∀ x ∈ db.admins, (x.username == "admin") = false := by
      intro x hx
      exact Bool.eq_false_iff.mpr (List.find?_eq_none.mp h x hx)
    show { db with admins := updateFirst (fun a => a.username == "admin") (fun a => { a with password := bcryptHash pw }) db.admins } = db
    rw [updateFirst_eq_self _ _ _ hall]
  · intro l1 y l2 hdec hl1 hy
    show updateFirst (fun a => a.username == "admin") (fun a => { a with password := bcryptHash pw }) db.admins = _
    rw [hdec]
    exact updateFirst_append_cons _ _ l1 y l2 hl1 hy

/-- Witness for C9: resetting on the initialized store rewrites the single
default admin's password hash. -/
theorem adminResetPassword_spec_witness :
    (adminResetPassword DB.init "npw").db.admins
      = [{ username := "admin", password := bcryptHash "npw" }] := by
  have h := (adminResetPassword_spec DB.init "npw").2.2.2.2.2 []
      { username := "admin", password := bcryptHash "admin123" } [] (by decide)
      (fun x hx => absurd hx (List.not_mem_nil x)) (by decide)
  exact h

/-- C10: The missing-field check accepts any present numeric score and total
(including zero), while the username is tested for JS truthiness, so an
empty-string username is rejected with 400 and nothing is stored. -/
theorem submitResult_falsiness_spec (db : DB) (now : Nat) (name phone : Option String)
    (date : Option Nat) :
    (∀ u s tt, u ≠ "" →
       (submitResult db now (some u) name phone (some s) (some tt) date).status = 200 ∧
       ∃ r0, (submitResult db now (some u) name phone (some s) (some tt) date).db
           = { db with results := db.results ++ [r0] } ∧
         r0.username = u ∧ r0.score = s ∧ r0.total = tt) ∧
    (∀ sc tot, (submitResult db now (some "") name phone sc tot date).status = 400 ∧
       (submitResult db now (some "") name phone sc tot date).db = db) := by
  constructor
  · intro u s tt hne
    have htru : jsTruthyStr (some u) = true := by
      simp [jsTruthyStr, hne]
    refine ⟨by simp [submitResult, htru], ?_⟩
    refine ⟨{ username := u, name := strOr name "Unknown", phone := strOr phone "Not Provided", score := s, total := tt, date := jsDateOr date now }, ?_, rfl, rfl, rfl⟩
    simp [submitResult, htru]
  · intro sc tot
    constructor
    · simp [submitResult, jsTruthyStr]
    · simp [submitResult, jsTruthyStr]

/-- Witness for C10: a zero score and zero total are accepted and stored. -/
theorem submitResult_falsiness_spec_witness :
    (submitResult DB.init 8 (some "u0") none none (some 0) (some 0) none).status = 200 ∧
    ∃ r0, (submitResult DB.init 8 (some "u0") none none (some 0) (some 0) none).db
        = { DB.init with results := DB.init.results ++ [r0] } ∧
      r0.username = "u0" ∧ r0.score = 0 ∧ r0.total = 0 :=
  (submitResult_falsiness_spec DB.init 8 none none none).1 "u0" 0 0 (by decide)
